import Mathlib

/-!
Verification of the run crate of minecraft_tools (src/run/src/lib.rs and
src/run/src/main.rs): a shallow embedding of the error taxonomy, the
directory-validity check, the setup phase (version resolution, artifact
download-if-absent, eula file, process spawn) and the output-aggregation
pipeline (two relay tasks feeding one bounded channel drained by a single
aggregator), together with proofs of the specified properties.
-/

namespace MinecraftRun

/-! ## Error types (lib.rs lines 17 to 43) -/

/-- Embedding of the ThreadError enum of lib.rs: a relay task fails either
reading a line (IoError) or forwarding it into the channel (SendError). -/
inductive ThreadError where
  | ioError
  | sendError
deriving DecidableEq

/-- Embedding of the RunMinecraftError enum of lib.rs. The payloads carried by
the Rust variants are irrelevant to the claims and are dropped, except for the
ThreadError payload which the claims inspect. -/
inductive RunMinecraftError where
  | ioError
  | genericError
  | noWorld
  | couldNotFetch
  | badSelector
  | couldNotFindServer
  | joinError
  | threadError (e : ThreadError)
deriving DecidableEq

/-! ## Filesystem model and directory validity (lib.rs lines 45 to 52)

A path is its list of components; PathBuf.join appends a component. The
filesystem is abstract: which paths are directories, which are regular files,
and the contents of regular files. -/

abbrev Path := List String

structure FileSystem where
  isDir : Path → Bool
  isFile : Path → Bool
  contents : Path → String

/-- Embedding of fn path_exists (lib.rs lines 45 to 47):
path.is_dir() || path.is_file(). -/
def path_exists (fs : FileSystem) (path : Path) : Bool :=
  fs.isDir path || fs.isFile path

/-- Embedding of fn is_likely_minecraft_directory (lib.rs lines 49 to 52):
the directory is accepted when path/world exists or path/world/level.dat
exists. -/
def is_likely_minecraft_directory (fs : FileSystem) (path : Path) : Bool :=
  let world_dir := path ++ ["world"]
  path_exists fs world_dir || path_exists fs (world_dir ++ ["level.dat"])

/-! ## CLI entry point (main.rs lines 12 to 19)

The fn main of main.rs prints a banner to stdout, runs the server, and on
failure prints the error to stderr with eprintln. It never sets a process
exit status: main returns unit, so the process exits with status 0 on every
path. -/

/-- Display strings of the thiserror derive on RunMinecraftError
(lib.rs lines 17 to 35). -/
def errorMessage : RunMinecraftError → String
  | .ioError => "error in reading Minecraft world directory"
  | .genericError => "generic error in processing Minecraft world"
  | .noWorld => "target directory does not contain a Minecraft world"
  | .couldNotFetch => "error in fetching Minecraft webpage"
  | .badSelector => "error in decoding Minecraft webpage"
  | .couldNotFindServer => "error finding latest Minecraft server"
  | .joinError => "threading error"
  | .threadError _ => "threading error"

structure CliOutcome where
  stdoutLines : List String
  stderrLines : List String
  exitCode : Nat
deriving DecidableEq

/-- Embedding of fn main (main.rs lines 12 to 19), parameterised by the
directory argument and the result of run_minecraft_server. The final
exit code is 0 on every path because main returns unit after the
if-let that prints the error. -/
def mainModel (directory : String) (runResult : Except RunMinecraftError Unit) :
    CliOutcome :=
  let banner := "Running Minecraft from \x22" ++ directory ++ "\x22..."
  match runResult with
  | .ok _ => ⟨[banner], [], 0⟩
  | .error e => ⟨[banner], ["Error: " ++ errorMessage e], 0⟩

/-! ## Setup phase of run_minecraft_server (lib.rs lines 75 to 132)

The sequential prefix of run_minecraft_server: directory validation, fetch of
the download webpage, link extraction, download-if-absent of the server
artifact, eula.txt creation, and the java process spawn. External
collaborators (HTTP, scraper, the OS) are oracles in SetupEnv; the function
records the externally visible side effects in order. -/

/-- An observable side effect of the setup phase. -/
inductive Effect where
  | netRequest (url : String)
  | fileCreate (p : Path)
  | fileWrite (p : Path) (data : String)
  | processSpawn
deriving DecidableEq

/-- The link scraped from the download page: inner_html gives the artifact
filename, the href attribute gives the download URL (lib.rs lines 97 to 108). -/
structure DownloadPage where
  serverFilename : String
  serverDownloadUrl : String
deriving DecidableEq

/-- Oracles for the external collaborators of the setup phase.
pageResult is the combined outcome of the webpage GET, the selector parse and
the link search (errors CouldNotFetch, BadSelector, CouldNotFindServer).
downloadResult is the body of the artifact GET. writeAccepted is the byte
count the OS accepts in the single File::write call of lib.rs line 112: the
io::Write contract allows it to be any number up to the buffer length, and
the code ignores the returned count. spawnResult is the outcome of
Command::spawn. -/
structure SetupEnv where
  fs : FileSystem
  pageResult : Except RunMinecraftError DownloadPage
  downloadResult : Except RunMinecraftError String
  writeAccepted : Nat
  spawnResult : Except RunMinecraftError Unit

/-- Creating or truncating-and-writing a regular file at p. File::create is
writeFile p with empty contents. -/
def FileSystem.writeFile (fs : FileSystem) (p : Path) (data : String) :
    FileSystem where
  isDir := fs.isDir
  isFile := fun q => if q = p then true else fs.isFile q
  contents := fun q => if q = p then data else fs.contents q

def serverPageUrl : String := "https://www.minecraft.net/en-us/download/server"

def eulaContents : String := "eula=true"

structure SetupOut where
  fs : FileSystem
  effects : List Effect
  outcome : Except RunMinecraftError DownloadPage

/-- Tail of the setup phase after the artifact step: write eula.txt when it is
absent (lib.rs lines 122 to 125, fs::write writes the whole string), then
spawn the java process (lib.rs lines 127 to 132). -/
def setupTail (env : SetupEnv) (fs : FileSystem) (effs : List Effect)
    (page : DownloadPage) (path : Path) : SetupOut :=
  let eula_file := path ++ ["eula.txt"]
  let fs2 := if path_exists fs eula_file then fs
             else fs.writeFile eula_file eulaContents
  let effs2 := effs ++ (if path_exists fs eula_file then []
                        else [Effect.fileWrite eula_file eulaContents])
  match env.spawnResult with
  | .error e => ⟨fs2, effs2 ++ [Effect.processSpawn], .error e⟩
  | .ok _ => ⟨fs2, effs2 ++ [Effect.processSpawn], .ok page⟩

/-- Embedding of the setup phase of run_minecraft_server (lib.rs lines 75 to
132), in source order: the NoWorld guard first (lines 75 to 77), then the
webpage fetch and link extraction (lines 79 to 108), then, when the artifact
is absent, File::create followed by the download GET followed by one
File::write call that persists only the accepted byte count (lines 110 to
120), then eula.txt and the spawn. On success the resolved page is returned
(its filename is used in the spawn arguments). -/
def run_minecraft_server_setup (env : SetupEnv) (path : Path) : SetupOut :=
  if is_likely_minecraft_directory env.fs path = false then
    ⟨env.fs, [], .error .noWorld⟩
  else
    match env.pageResult with
    | .error e => ⟨env.fs, [Effect.netRequest serverPageUrl], .error e⟩
    | .ok page =>
      let server_path := path ++ [page.serverFilename]
      if path_exists env.fs server_path = false then
        let fs1 := env.fs.writeFile server_path ""
        match env.downloadResult with
        | .error e =>
            ⟨fs1, [Effect.netRequest serverPageUrl, Effect.fileCreate server_path,
                   Effect.netRequest page.serverDownloadUrl], .error e⟩
        | .ok body =>
            let stored := body.take env.writeAccepted
            setupTail env (fs1.writeFile server_path stored)
              [Effect.netRequest serverPageUrl, Effect.fileCreate server_path,
               Effect.netRequest page.serverDownloadUrl,
               Effect.fileWrite server_path stored] page path
      else
        setupTail env env.fs [Effect.netRequest serverPageUrl] page path

/-! ## The output aggregation pipeline (lib.rs lines 54 to 68 and 148 to 163)

Small-step operational model. Each relay task (run_grab_output_thread) owns
one stream, modelled as the list of lines the stream will yield followed by
either end-of-file or a read failure. The shared channel is
mpsc::channel(1): a queue whose length never exceeds chanCapacity; a send
suspends while the queue is full. The aggregator loop of run_minecraft_server
dequeues a line, writes its bytes, writes one newline byte, and flushes; on a
write failure the function returns at once through the question-mark operator,
leaving the join loop unexecuted. When both senders are dropped and the queue
is empty, recv returns None and the two JoinHandles are awaited in order. -/

/-- One stream of the child process: the complete lines it yields in order,
then either a clean end of file (fails = false) or a read failure
(fails = true). -/
structure RelaySrc where
  lines : List String
  fails : Bool
deriving DecidableEq

/-- State of one relay task: still in its read-send loop with the given lines
left to produce, or finished with the result of the spawned future. -/
inductive RelayState where
  | running (lines : List String) (fails : Bool)
  | done (result : Except ThreadError Unit)

/-- The result a relay task finishes with when its stream ends
(lib.rs lines 61 to 67): Ok on end of file, Err(ThreadError::IoError) when
next_line fails. -/
def relayResult (fails : Bool) : Except ThreadError Unit :=
  if fails then .error .ioError else .ok ()

/-- The join loop of lib.rs lines 159 to 161: thread.await?? for the stdout
relay first, then the stderr relay; the first Err wins, wrapped into
RunMinecraftError::ThreadError. -/
def joinResults (r1 r2 : Except ThreadError Unit) :
    Except RunMinecraftError Unit :=
  match r1 with
  | .error e => .error (.threadError e)
  | .ok _ =>
    match r2 with
    | .error e => .error (.threadError e)
    | .ok _ => .ok ()

/-- Capacity of the shared channel: mpsc::channel(1) at lib.rs line 149. -/
def chanCapacity : Nat := 1

/-- Global state of the streaming phase. relay1 reads stdout, relay2 reads
stderr. chan is the queued channel content, oldest first. written is the list
of lines the aggregator has written and flushed, in order; sink is the exact
byte (character) sequence written to the output sink. result is set once
run_minecraft_server has returned. -/
structure Config where
  relay1 : RelayState
  relay2 : RelayState
  chan : List String
  written : List String
  sink : List Char
  result : Option (Except RunMinecraftError Unit)

/-- Initial state: both relays at the start of their loops, channel empty,
nothing written. -/
def init (s1 s2 : RelaySrc) : Config :=
  ⟨.running s1.lines s1.fails, .running s2.lines s2.fails, [], [], [], none⟩

/-- One scheduler step of the pipeline. send steps model a successful
sender.send (guarded by channel capacity: a relay facing a full channel is
suspended and has no enabled step, lib.rs line 63). eof steps model the end
of a relay loop, with the result determined by whether the final next_line
call fails (lib.rs line 62). recv models one aggregator iteration: dequeue,
write_all of the line bytes, write_u8 of one newline, flush (lib.rs lines 154
to 158). recvFail models a failing write or flush after the dequeue: the
question-mark operator makes run_minecraft_server return immediately with
RunMinecraftError::IoError, freezing the state with the relays unjoined.
finish models recv returning None (both senders dropped, queue empty) and the
join loop returning (lib.rs lines 159 to 163). -/
inductive Step : Config → Config → Prop where
  | send1 {l : String} {rest : List String} {f : Bool} {r2 : RelayState}
      {chan written : List String} {sink : List Char} :
      chan.length < chanCapacity →
      Step ⟨.running (l :: rest) f, r2, chan, written, sink, none⟩
           ⟨.running rest f, r2, chan ++ [l], written, sink, none⟩
  | send2 {l : String} {rest : List String} {f : Bool} {r1 : RelayState}
      {chan written : List String} {sink : List Char} :
      chan.length < chanCapacity →
      Step ⟨r1, .running (l :: rest) f, chan, written, sink, none⟩
           ⟨r1, .running rest f, chan ++ [l], written, sink, none⟩
  | eof1 {f : Bool} {r2 : RelayState} {chan written : List String}
      {sink : List Char} :
      Step ⟨.running [] f, r2, chan, written, sink, none⟩
           ⟨.done (relayResult f), r2, chan, written, sink, none⟩
  | eof2 {f : Bool} {r1 : RelayState} {chan written : List String}
      {sink : List Char} :
      Step ⟨r1, .running [] f, chan, written, sink, none⟩
           ⟨r1, .done (relayResult f), chan, written, sink, none⟩
  | recv {l : String} {rest : List String} {r1 r2 : RelayState}
      {written : List String} {sink : List Char} :
      Step ⟨r1, r2, l :: rest, written, sink, none⟩
           ⟨r1, r2, rest, written ++ [l], sink ++ l.data ++ ['\n'], none⟩
  | recvFail {l : String} {rest : List String} {r1 r2 : RelayState}
      {written : List String} {sink : List Char} :
      Step ⟨r1, r2, l :: rest, written, sink, none⟩
           ⟨r1, r2, rest, written, sink, some (.error .ioError)⟩
  | finish {q1 q2 : Except ThreadError Unit} {written : List String}
      {sink : List Char} :
      Step ⟨.done q1, .done q2, [], written, sink, none⟩
           ⟨.done q1, .done q2, [], written, sink, some (joinResults q1 q2)⟩

/-- Reachability of a pipeline state from the initial state for the two given
streams. -/
def Reaches (s1 s2 : RelaySrc) (c : Config) : Prop :=
  Relation.ReflTransGen Step (init s1 s2) c

/-- zs is an order-preserving interleaving of xs and ys. -/
inductive Interleave : List String → List String → List String → Prop where
  | nil : Interleave [] [] []
  | left {x : String} {xs ys zs : List String} :
      Interleave xs ys zs → Interleave (x :: xs) ys (x :: zs)
  | right {y : String} {xs ys zs : List String} :
      Interleave xs ys zs → Interleave xs (y :: ys) (y :: zs)

/-- The byte (character) sequence the aggregator emits for a list of written
lines: each line followed by exactly one newline character. -/
def flushBytes : List String → List Char
  | [] => []
  | l :: ls => l.data ++ '\n' :: flushBytes ls

/-- Lines a relay still has to produce. -/
def relayRem : RelayState → List String
  | .running ls _ => ls
  | .done _ => []

/-- Consistency of a relay state with the failure mode of its stream: a
running relay still carries the fail flag of its stream, a finished relay
holds exactly the result determined by that flag. -/
def relayConsistent (fails : Bool) : RelayState → Prop
  | .running _ f => f = fails
  | .done r => r = relayResult fails

/-- The inductive invariant of the pipeline. The written and queued lines
always form an interleaving of per-stream prefixes; the sink holds exactly
the flushed bytes of the written lines; the channel never exceeds its
capacity. Once the run has returned: a write failure (IoError) leaves an
interleaving of prefixes in the sink, while a normal termination through the
join loop leaves an interleaving of both complete streams and a result fully
determined by the two fail flags. -/
structure Inv (s1 s2 : RelaySrc) (c : Config) : Prop where
  sink_eq : c.sink = flushBytes c.written
  chan_le : c.chan.length ≤ chanCapacity
  cons1 : relayConsistent s1.fails c.relay1
  cons2 : relayConsistent s2.fails c.relay2
  live : c.result = none →
    ∃ p1 p2, s1.lines = p1 ++ relayRem c.relay1 ∧
      s2.lines = p2 ++ relayRem c.relay2 ∧
      Interleave p1 p2 (c.written ++ c.chan)
  finalized : ∀ r, c.result = some r →
    (r = .error .ioError ∧
      ∃ p1 t1 p2 t2, s1.lines = p1 ++ t1 ∧ s2.lines = p2 ++ t2 ∧
        Interleave p1 p2 c.written) ∨
    (c.relay1 = .done (relayResult s1.fails) ∧
     c.relay2 = .done (relayResult s2.fails) ∧
     r = joinResults (relayResult s1.fails) (relayResult s2.fails) ∧
     Interleave s1.lines s2.lines c.written)

/-! ## Concrete instances used to evaluate the development -/

/-- The empty filesystem. -/
def fs0 : FileSystem := ⟨fun _ => false, fun _ => false, fun _ => ""⟩

/-- An environment over the empty filesystem whose oracles would all be
consulted only after the directory check. -/
def env4 : SetupEnv := ⟨fs0, .error .couldNotFetch, .error .couldNotFetch, 0, .ok ()⟩

/-- A filesystem containing exactly the directory d/world. -/
def fsd : FileSystem :=
  ⟨fun p => decide (p = ["d", "world"]), fun _ => false, fun _ => ""⟩

def page7 : DownloadPage := ⟨"server.jar", "https://example.com/server.jar"⟩

/-- A run target with a world directory, no artifact, no eula.txt, and all
external collaborators succeeding. -/
def env7 : SetupEnv := ⟨fsd, .ok page7, .ok "xyz", 1000, .ok ()⟩

def page10 : DownloadPage := ⟨"server.jar", "https://example.com/server.jar"⟩

/-- Like env7, but the download body is the two bytes of "hi" and the OS
accepts only one byte in the single File::write call. -/
def env10 : SetupEnv := ⟨fsd, .ok page10, .ok "hi", 1, .ok ()⟩

/-- The state left behind when the stdout relay has forwarded "a" out of its
two-line stream, the aggregator dequeued it and its write failed: the run has
returned while the stdout relay still has "b" to produce. -/
def cfgC6 : Config :=
  ⟨.running ["b"] false, .running [] false, [], [], [],
   some (.error .ioError)⟩

/-- A stdout stream producing the single line "a" then ending cleanly. -/
def srcA : RelaySrc := ⟨["a"], false⟩

/-- An empty stream ending cleanly. -/
def srcE : RelaySrc := ⟨[], false⟩

/-- A stream producing "a" and then reporting a read failure. -/
def srcAfail : RelaySrc := ⟨["a"], true⟩

/-- A stream producing "a" then "b" then ending cleanly. -/
def srcAB : RelaySrc := ⟨["a", "b"], false⟩

/-- Final state of a completed successful run over srcA and srcE. -/
def cfgOk : Config :=
  ⟨.done (.ok ()), .done (.ok ()), [], ["a"], flushBytes ["a"],
   some (.ok ())⟩

/-- Final state of a completed run over srcAfail and srcE: the line produced
before the read failure was written, and the join loop surfaced the
ThreadError. -/
def cfgFail : Config :=
  ⟨.done (.error .ioError), .done (.ok ()), [], ["a"], flushBytes ["a"],
   some (.error (.threadError .ioError))⟩

/-- Final state of the mirrored run over srcE and srcAfail: here the stderr
relay is the one whose reader failed, after its line was delivered. -/
def cfgFail2 : Config :=
  ⟨.done (.ok ()), .done (.error .ioError), [], ["a"], flushBytes ["a"],
   some (.error (.threadError .ioError))⟩

/-! ## Filesystem lemmas -/

theorem path_exists_writeFile_self (fs : FileSystem) (p : Path) (d : String) :
    path_exists (fs.writeFile p d) p = true := by
  simp [path_exists, FileSystem.writeFile]

theorem path_exists_writeFile_mono (fs : FileSystem) (p q : Path) (d : String)
    (h : path_exists fs q = true) : path_exists (fs.writeFile p d) q = true := by
  by_cases hq : q = p
  · subst hq; exact path_exists_writeFile_self fs q d
  · simpa [path_exists, FileSystem.writeFile, hq] using h

theorem is_likely_writeFile_mono (fs : FileSystem) (path p : Path) (d : String)
    (h : is_likely_minecraft_directory fs path = true) :
    is_likely_minecraft_directory (fs.writeFile p d) path = true := by
  simp only [is_likely_minecraft_directory, Bool.or_eq_true] at h ⊢
  rcases h with h | h
  · exact Or.inl (path_exists_writeFile_mono fs p _ d h)
  · exact Or.inr (path_exists_writeFile_mono fs p _ d h)

theorem contents_writeFile_of_ne (fs : FileSystem) {p q : Path} (d : String)
    (h : q ≠ p) : (fs.writeFile p d).contents q = fs.contents q := by
  simp [FileSystem.writeFile, h]

/-! ## C9: the directory check is equivalent to checking path/world alone -/

/-- C9: on any filesystem in which path/world/level.dat can only exist when
path/world is itself a directory, is_likely_minecraft_directory coincides
with the simpler check path_exists on path/world: the level.dat disjunct is
redundant. -/
theorem is_likely_eq_world_exists (fs : FileSystem) (p : Path)
    (h : path_exists fs ((p ++ ["world"]) ++ ["level.dat"]) = true →
         fs.isDir (p ++ ["world"]) = true) :
    is_likely_minecraft_directory fs p = path_exists fs (p ++ ["world"]) := by
  have hmain : is_likely_minecraft_directory fs p
      = (path_exists fs (p ++ ["world"]) ||
         path_exists fs ((p ++ ["world"]) ++ ["level.dat"])) := rfl
  rw [hmain]
  cases hw : path_exists fs (p ++ ["world"]) with
  | true => rfl
  | false =>
    cases hl : path_exists fs ((p ++ ["world"]) ++ ["level.dat"]) with
    | false => rfl
    | true =>
      exfalso
      have hd := h hl
      simp [path_exists, hd] at hw

/-- Witness for C9 at the empty filesystem and the empty path. -/
theorem is_likely_eq_world_exists_witness :
    is_likely_minecraft_directory fs0 [] = path_exists fs0 ["world"] :=
  is_likely_eq_world_exists fs0 []
    (by intro h; simp [path_exists, fs0] at h)

/-! ## C5: behaviour of the CLI on a failing run -/

/-- C5 counterexample: when run_minecraft_server fails with NoWorld, the
process exit code modelled from fn main is 0, not non-zero: main prints the
error with eprintln and then returns unit, so the claimed non-zero exit
status is false. -/
theorem main_exit_status_cex :
    (mainModel "mydir" (Except.error RunMinecraftError.noWorld)).exitCode = 0 ∧
    ¬ (mainModel "mydir" (Except.error RunMinecraftError.noWorld)).exitCode ≠ 0 := by
  exact ⟨rfl, by simp [mainModel]⟩

/-- C5 amended: for every failing run, the CLI prints exactly one
human-readable error line to standard error, but the process exit status is 0
(the failure is not reflected in the exit code). -/
theorem main_prints_error_but_exits_zero (d : String) (e : RunMinecraftError) :
    (mainModel d (Except.error e)).stderrLines = ["Error: " ++ errorMessage e] ∧
    (mainModel d (Except.error e)).exitCode = 0 :=
  ⟨rfl, rfl⟩

/-! ## C4: invalid directories are rejected before any side effect -/

/-- C4: when the target directory passes neither marker check, the setup
phase returns the NoWorld error with an empty effect trace (no network
request, no file creation or write, no process spawn) and an unchanged
filesystem. -/
theorem setup_rejects_without_side_effects (env : SetupEnv) (path : Path)
    (h : is_likely_minecraft_directory env.fs path = false) :
    run_minecraft_server_setup env path
      = ⟨env.fs, [], .error .noWorld⟩ := by
  simp [run_minecraft_server_setup, h]

/-- Witness for C4: the empty filesystem contains neither marker. -/
theorem setup_rejects_witness :
    run_minecraft_server_setup env4 []
      = ⟨env4.fs, [], .error .noWorld⟩ :=
  setup_rejects_without_side_effects env4 []
    (by simp [is_likely_minecraft_directory, path_exists, env4, fs0])

/-! ## Characterisations of the setup phase branches -/

theorem setupTail_effects (env : SetupEnv) (fs : FileSystem) (effs : List Effect)
    (page : DownloadPage) (path : Path) :
    (setupTail env fs effs page path).effects
      = effs ++ (if path_exists fs (path ++ ["eula.txt"]) then []
                 else [Effect.fileWrite (path ++ ["eula.txt"]) eulaContents])
             ++ [Effect.processSpawn] := by
  rcases hsp : env.spawnResult with e | u <;>
    simp [setupTail, hsp, List.append_assoc]

theorem setupTail_fs (env : SetupEnv) (fs : FileSystem) (effs : List Effect)
    (page : DownloadPage) (path : Path) :
    (setupTail env fs effs page path).fs
      = if path_exists fs (path ++ ["eula.txt"]) then fs
        else fs.writeFile (path ++ ["eula.txt"]) eulaContents := by
  rcases hsp : env.spawnResult with e | u <;> simp [setupTail, hsp]

theorem setupTail_outcome_ok (env : SetupEnv) (fs : FileSystem)
    (effs : List Effect) (page : DownloadPage) (path : Path) (u : Unit)
    (hsp : env.spawnResult = .ok u) :
    (setupTail env fs effs page path).outcome = .ok page := by
  simp [setupTail, hsp]

theorem setupTail_outcome_err (env : SetupEnv) (fs : FileSystem)
    (effs : List Effect) (page : DownloadPage) (path : Path)
    (e : RunMinecraftError) (hsp : env.spawnResult = .error e) :
    (setupTail env fs effs page path).outcome = .error e := by
  simp [setupTail, hsp]

theorem setup_artifact_present (env : SetupEnv) (path : Path)
    (page : DownloadPage)
    (hpage : env.pageResult = .ok page)
    (hlik : is_likely_minecraft_directory env.fs path = true)
    (hart : path_exists env.fs (path ++ [page.serverFilename]) = true) :
    run_minecraft_server_setup env path
      = setupTail env env.fs [Effect.netRequest serverPageUrl] page path := by
  simp [run_minecraft_server_setup, hlik, hpage, hart]

theorem setup_artifact_absent (env : SetupEnv) (path : Path)
    (page : DownloadPage) (body : String)
    (hpage : env.pageResult = .ok page)
    (hlik : is_likely_minecraft_directory env.fs path = true)
    (hart : path_exists env.fs (path ++ [page.serverFilename]) = false)
    (hdl : env.downloadResult = .ok body) :
    run_minecraft_server_setup env path
      = setupTail env
          ((env.fs.writeFile (path ++ [page.serverFilename]) "").writeFile
            (path ++ [page.serverFilename]) (body.take env.writeAccepted))
          [Effect.netRequest serverPageUrl,
           Effect.fileCreate (path ++ [page.serverFilename]),
           Effect.netRequest page.serverDownloadUrl,
           Effect.fileWrite (path ++ [page.serverFilename])
             (body.take env.writeAccepted)] page path := by
  simp [run_minecraft_server_setup, hlik, hpage, hart, hdl]

theorem setup_download_error (env : SetupEnv) (path : Path)
    (page : DownloadPage) (e : RunMinecraftError)
    (hpage : env.pageResult = .ok page)
    (hlik : is_likely_minecraft_directory env.fs path = true)
    (hart : path_exists env.fs (path ++ [page.serverFilename]) = false)
    (hdl : env.downloadResult = .error e) :
    run_minecraft_server_setup env path
      = ⟨env.fs.writeFile (path ++ [page.serverFilename]) "",
         [Effect.netRequest serverPageUrl,
          Effect.fileCreate (path ++ [page.serverFilename]),
          Effect.netRequest page.serverDownloadUrl], .error e⟩ := by
  simp [run_minecraft_server_setup, hlik, hpage, hart, hdl]

/-- A run whose artifact and eula files both already exist performs exactly
the page request and the spawn: no download request, no file effect. -/
theorem setup_second_run (env : SetupEnv) (path : Path) (page : DownloadPage)
    (hpage : env.pageResult = .ok page)
    (hlik : is_likely_minecraft_directory env.fs path = true)
    (hart : path_exists env.fs (path ++ [page.serverFilename]) = true)
    (heula : path_exists env.fs (path ++ ["eula.txt"]) = true) :
    (run_minecraft_server_setup env path).effects
      = [Effect.netRequest serverPageUrl, Effect.processSpawn] := by
  rw [setup_artifact_present env path page hpage hlik hart,
      setupTail_effects]
  simp [heula]

/-! ## C7: the environment setup is idempotent -/

/-- C7: with the version page resolving to an artifact: (1) if the artifact
file already exists, the setup leaves its contents unchanged and its effect
trace holds no download request and no artifact file effect, only the page
request, possibly the eula write, and the spawn; (2) if eula.txt already
exists its contents are unchanged; (3) after a successful first run, a second
run over the resulting filesystem performs exactly the page request and the
spawn: the artifact download request is made only on the first run. -/
theorem setup_idempotent (env : SetupEnv) (path : Path) (page : DownloadPage)
    (hpage : env.pageResult = .ok page)
    (hlik : is_likely_minecraft_directory env.fs path = true) :
    (path_exists env.fs (path ++ [page.serverFilename]) = true →
      (run_minecraft_server_setup env path).fs.contents
          (path ++ [page.serverFilename])
        = env.fs.contents (path ++ [page.serverFilename]) ∧
      (run_minecraft_server_setup env path).effects
        = [Effect.netRequest serverPageUrl]
            ++ (if path_exists env.fs (path ++ ["eula.txt"]) then []
                else [Effect.fileWrite (path ++ ["eula.txt"]) eulaContents])
            ++ [Effect.processSpawn]) ∧
    (path_exists env.fs (path ++ ["eula.txt"]) = true →
      (run_minecraft_server_setup env path).fs.contents (path ++ ["eula.txt"])
        = env.fs.contents (path ++ ["eula.txt"])) ∧
    ((run_minecraft_server_setup env path).outcome = .ok page →
      (run_minecraft_server_setup
          { env with fs := (run_minecraft_server_setup env path).fs }
          path).effects
        = [Effect.netRequest serverPageUrl, Effect.processSpawn]) := by
  refine ⟨?_, ?_, ?_⟩
  · intro hart
    rw [setup_artifact_present env path page hpage hlik hart]
    refine ⟨?_, setupTail_effects env env.fs _ page path⟩
    rw [setupTail_fs]
    by_cases heula : path_exists env.fs (path ++ ["eula.txt"]) = true
    · rw [if_pos heula]
    · have hne : (path ++ [page.serverFilename]) ≠ (path ++ ["eula.txt"]) := by
        intro hq
        rw [← hq] at heula
        exact heula hart
      rw [if_neg heula]
      exact contents_writeFile_of_ne env.fs eulaContents hne
  · intro heula
    by_cases hart : path_exists env.fs (path ++ [page.serverFilename]) = true
    · rw [setup_artifact_present env path page hpage hlik hart, setupTail_fs,
          if_pos heula]
    · have hart' : path_exists env.fs (path ++ [page.serverFilename])
          = false := by
        simpa using hart
      have hne : (path ++ ["eula.txt"]) ≠ (path ++ [page.serverFilename]) := by
        intro hq
        rw [← hq, heula] at hart'
        cases hart'
      rcases hdl : env.downloadResult with e | body
      · rw [setup_download_error env path page e hpage hlik hart' hdl]
        exact contents_writeFile_of_ne env.fs "" hne
      · rw [setup_artifact_absent env path page body hpage hlik hart' hdl,
            setupTail_fs]
        have heula2 : path_exists
            ((env.fs.writeFile (path ++ [page.serverFilename]) "").writeFile
              (path ++ [page.serverFilename]) (body.take env.writeAccepted))
            (path ++ ["eula.txt"]) = true :=
          path_exists_writeFile_mono _ _ _ _
            (path_exists_writeFile_mono _ _ _ _ heula)
        rw [if_pos heula2, contents_writeFile_of_ne _ _ hne,
            contents_writeFile_of_ne _ _ hne]
  · intro hout
    by_cases hart : path_exists env.fs (path ++ [page.serverFilename]) = true
    · have hfs : (run_minecraft_server_setup env path).fs
          = if path_exists env.fs (path ++ ["eula.txt"]) then env.fs
            else env.fs.writeFile (path ++ ["eula.txt"]) eulaContents := by
        rw [setup_artifact_present env path page hpage hlik hart, setupTail_fs]
      by_cases heula : path_exists env.fs (path ++ ["eula.txt"]) = true
      · rw [hfs, if_pos heula]
        exact setup_second_run env path page hpage hlik hart heula
      · rw [hfs, if_neg heula]
        exact setup_second_run _ path page hpage
          (is_likely_writeFile_mono env.fs path _ eulaContents hlik)
          (path_exists_writeFile_mono env.fs _ _ eulaContents hart)
          (path_exists_writeFile_self env.fs _ eulaContents)
    · have hart' : path_exists env.fs (path ++ [page.serverFilename])
          = false := by
        simpa using hart
      rcases hdl : env.downloadResult with e | body
      · rw [setup_download_error env path page e hpage hlik hart' hdl] at hout
        simp at hout
      · rw [setup_artifact_absent env path page body hpage hlik hart' hdl,
            setupTail_fs]
        have hfs2art : path_exists
            ((env.fs.writeFile (path ++ [page.serverFilename]) "").writeFile
              (path ++ [page.serverFilename]) (body.take env.writeAccepted))
            (path ++ [page.serverFilename]) = true :=
          path_exists_writeFile_self _ _ _
        have hfs2lik : is_likely_minecraft_directory
            ((env.fs.writeFile (path ++ [page.serverFilename]) "").writeFile
              (path ++ [page.serverFilename]) (body.take env.writeAccepted))
            path = true :=
          is_likely_writeFile_mono _ path _ _
            (is_likely_writeFile_mono _ path _ _ hlik)
        by_cases heula2 : path_exists
            ((env.fs.writeFile (path ++ [page.serverFilename]) "").writeFile
              (path ++ [page.serverFilename]) (body.take env.writeAccepted))
            (path ++ ["eula.txt"]) = true
        · rw [if_pos heula2]
          exact setup_second_run _ path page hpage hfs2lik hfs2art heula2
        · rw [if_neg heula2]
          exact setup_second_run _ path page hpage
            (is_likely_writeFile_mono _ path _ _ hfs2lik)
            (path_exists_writeFile_mono _ _ _ _ hfs2art)
            (path_exists_writeFile_self _ _ _)

/-- Witness for C7 at a concrete run target with a world directory, no
artifact and no eula.txt, over succeeding collaborators. -/
theorem setup_idempotent_witness :
    (path_exists env7.fs (["d"] ++ [page7.serverFilename]) = true →
      (run_minecraft_server_setup env7 ["d"]).fs.contents
          (["d"] ++ [page7.serverFilename])
        = env7.fs.contents (["d"] ++ [page7.serverFilename]) ∧
      (run_minecraft_server_setup env7 ["d"]).effects
        = [Effect.netRequest serverPageUrl]
            ++ (if path_exists env7.fs (["d"] ++ ["eula.txt"]) then []
                else [Effect.fileWrite (["d"] ++ ["eula.txt"]) eulaContents])
            ++ [Effect.processSpawn]) ∧
    (path_exists env7.fs (["d"] ++ ["eula.txt"]) = true →
      (run_minecraft_server_setup env7 ["d"]).fs.contents
          (["d"] ++ ["eula.txt"])
        = env7.fs.contents (["d"] ++ ["eula.txt"])) ∧
    ((run_minecraft_server_setup env7 ["d"]).outcome = .ok page7 →
      (run_minecraft_server_setup
          { env7 with fs := (run_minecraft_server_setup env7 ["d"]).fs }
          ["d"]).effects
        = [Effect.netRequest serverPageUrl, Effect.processSpawn]) :=
  setup_idempotent env7 ["d"] page7 rfl (by decide)

/-! ## C10: the artifact write persists only the accepted byte count -/

/-- C10 (code bug evaluation): first run against a valid directory with no
artifact; the download succeeds with the two-byte body "hi" but the OS
accepts only one byte from the single File::write call of lib.rs line 112,
whose returned count the code discards. The run reports success and the
artifact file holds only the prefix "h" of the downloaded body, refuting the
claim that every byte of the response is persisted. -/
theorem artifact_write_truncates :
    (run_minecraft_server_setup env10 ["d"]).outcome = .ok page10 ∧
    (run_minecraft_server_setup env10 ["d"]).fs.contents ["d", "server.jar"]
      = "h" ∧
    "h" ≠ "hi" ∧
    (run_minecraft_server_setup env10 ["d"]).effects
      = [Effect.netRequest serverPageUrl,
         Effect.fileCreate ["d", "server.jar"],
         Effect.netRequest page10.serverDownloadUrl,
         Effect.fileWrite ["d", "server.jar"] "h",
         Effect.fileWrite ["d", "eula.txt"] eulaContents,
         Effect.processSpawn] := by
  refine ⟨rfl, by decide, by decide, by decide⟩

/-! ## Interleaving lemmas -/

theorem Interleave.nil_left (ys : List String) : Interleave [] ys ys := by
  induction ys with
  | nil => exact .nil
  | cons y ys ih => exact .right ih

theorem Interleave.nil_right (xs : List String) : Interleave xs [] xs := by
  induction xs with
  | nil => exact .nil
  | cons x xs ih => exact .left ih

theorem Interleave.length_eq {xs ys zs : List String}
    (h : Interleave xs ys zs) : zs.length = xs.length + ys.length := by
  induction h with
  | nil => rfl
  | left _ ih => simp only [List.length_cons, ih]; omega
  | right _ ih => simp only [List.length_cons, ih]; omega

theorem Interleave.perm {xs ys zs : List String}
    (h : Interleave xs ys zs) : zs.Perm (xs ++ ys) := by
  induction h with
  | nil => exact List.Perm.refl []
  | left _ ih => exact List.Perm.cons _ ih
  | right _ ih => exact (List.Perm.cons _ ih).trans List.perm_middle.symm

theorem Interleave.snoc_left {xs ys zs : List String} (x : String)
    (h : Interleave xs ys zs) : Interleave (xs ++ [x]) ys (zs ++ [x]) := by
  induction h with
  | nil => exact .left .nil
  | left _ ih => exact .left ih
  | right _ ih => exact .right ih

theorem Interleave.snoc_right {xs ys zs : List String} (y : String)
    (h : Interleave xs ys zs) : Interleave xs (ys ++ [y]) (zs ++ [y]) := by
  induction h with
  | nil => exact .right .nil
  | left _ ih => exact .left ih
  | right _ ih => exact .right ih

/-- An interleaving of a list decomposed as zs1 ++ zs2 restricts to an
interleaving of the prefix zs1 by prefixes of the two sources. -/
theorem interleave_split (zs1 : List String) :
    ∀ (xs ys zs2 : List String), Interleave xs ys (zs1 ++ zs2) →
      ∃ xs1 xs2 ys1 ys2, xs = xs1 ++ xs2 ∧ ys = ys1 ++ ys2 ∧
        Interleave xs1 ys1 zs1 := by
  induction zs1 with
  | nil =>
    intro xs ys zs2 _
    exact ⟨[], xs, [], ys, rfl, rfl, .nil⟩
  | cons z zs1 ih =>
    intro xs ys zs2 h
    cases h with
    | left h =>
      obtain ⟨a, b, cc, d, hx, hy, hint⟩ := ih _ _ _ h
      exact ⟨z :: a, b, cc, d, by rw [hx]; rfl, hy, .left hint⟩
    | right h =>
      obtain ⟨a, b, cc, d, hx, hy, hint⟩ := ih _ _ _ h
      exact ⟨a, b, z :: cc, d, hx, by rw [hy]; rfl, .right hint⟩

theorem flushBytes_snoc (ws : List String) (l : String) :
    flushBytes (ws ++ [l]) = flushBytes ws ++ l.data ++ ['\n'] := by
  induction ws with
  | nil => simp [flushBytes]
  | cons w ws ih => simp [flushBytes, ih, List.append_assoc]

/-! ## The pipeline invariant -/

theorem init_inv (s1 s2 : RelaySrc) : Inv s1 s2 (init s1 s2) := by
  refine ⟨rfl, by simp [init, chanCapacity], rfl, rfl, ?_, ?_⟩
  · intro _
    exact ⟨[], [], rfl, rfl, .nil⟩
  · intro r hr
    exact Option.noConfusion hr

theorem step_inv (s1 s2 : RelaySrc) {c c' : Config} (hs : Step c c')
    (h : Inv s1 s2 c) : Inv s1 s2 c' := by
  obtain ⟨hsink, hchan, hc1, hc2, hlive, hfin⟩ := h
  cases hs with
  | @send1 l rest f r2 chan written sink hlt =>
    have hchan0 : chan = [] := by
      rw [chanCapacity] at hlt
      exact List.length_eq_zero.mp (Nat.lt_one_iff.mp hlt)
    subst hchan0
    obtain ⟨p1, p2, h1, h2, hint⟩ := hlive rfl
    have h1' : s1.lines = p1 ++ (l :: rest) := h1
    have hint' : Interleave p1 p2 (written ++ []) := hint
    refine ⟨hsink, by simp [chanCapacity], hc1, hc2, ?_, ?_⟩
    · intro _
      refine ⟨p1 ++ [l], p2, ?_, h2, ?_⟩
      · rw [List.append_assoc]
        simpa using h1'
      · simpa using hint'.snoc_left l
    · intro r hr
      exact Option.noConfusion hr
  | @send2 l rest f r1 chan written sink hlt =>
    have hchan0 : chan = [] := by
      rw [chanCapacity] at hlt
      exact List.length_eq_zero.mp (Nat.lt_one_iff.mp hlt)
    subst hchan0
    obtain ⟨p1, p2, h1, h2, hint⟩ := hlive rfl
    have h2' : s2.lines = p2 ++ (l :: rest) := h2
    have hint' : Interleave p1 p2 (written ++ []) := hint
    refine ⟨hsink, by simp [chanCapacity], hc1, hc2, ?_, ?_⟩
    · intro _
      refine ⟨p1, p2 ++ [l], h1, ?_, ?_⟩
      · rw [List.append_assoc]
        simpa using h2'
      · simpa using hint'.snoc_right l
    · intro r hr
      exact Option.noConfusion hr
  | @eof1 f r2 chan written sink =>
    obtain ⟨p1, p2, h1, h2, hint⟩ := hlive rfl
    have hf : f = s1.fails := hc1
    refine ⟨hsink, hchan, ?_, hc2, ?_, ?_⟩
    · show relayResult f = relayResult s1.fails
      rw [hf]
    · intro _
      refine ⟨p1, p2, ?_, h2, hint⟩
      simpa using h1
    · intro r hr
      exact Option.noConfusion hr
  | @eof2 f r1 chan written sink =>
    obtain ⟨p1, p2, h1, h2, hint⟩ := hlive rfl
    have hf : f = s2.fails := hc2
    refine ⟨hsink, hchan, hc1, ?_, ?_, ?_⟩
    · show relayResult f = relayResult s2.fails
      rw [hf]
    · intro _
      refine ⟨p1, p2, h1, ?_, hint⟩
      simpa using h2
    · intro r hr
      exact Option.noConfusion hr
  | @recv l rest r1 r2 written sink =>
    obtain ⟨p1, p2, h1, h2, hint⟩ := hlive rfl
    have hsink' : sink = flushBytes written := hsink
    have hchan' : rest.length + 1 ≤ chanCapacity := hchan
    have hint' : Interleave p1 p2 (written ++ (l :: rest)) := hint
    refine ⟨?_, ?_, hc1, hc2, ?_, ?_⟩
    · show sink ++ l.data ++ ['\n'] = flushBytes (written ++ [l])
      rw [flushBytes_snoc, hsink']
    · exact le_trans (Nat.le_succ _) hchan'
    · intro _
      refine ⟨p1, p2, h1, h2, ?_⟩
      show Interleave p1 p2 ((written ++ [l]) ++ rest)
      simpa [List.append_assoc] using hint'
    · intro r hr
      exact Option.noConfusion hr
  | @recvFail l rest r1 r2 written sink =>
    obtain ⟨p1, p2, h1, h2, hint⟩ := hlive rfl
    have hint' : Interleave p1 p2 (written ++ (l :: rest)) := hint
    refine ⟨hsink, ?_, hc1, hc2, ?_, ?_⟩
    · exact le_trans (Nat.le_succ _) hchan
    · intro hr
      exact Option.noConfusion hr
    · intro r hr
      have hr' : r = .error .ioError := (Option.some.inj hr).symm
      left
      refine ⟨hr', ?_⟩
      obtain ⟨a, b, cc, d, hx, hy, hi⟩ :=
        interleave_split written p1 p2 (l :: rest) hint'
      refine ⟨a, b ++ relayRem r1, cc, d ++ relayRem r2, ?_, ?_, hi⟩
      · have hh : s1.lines = p1 ++ relayRem r1 := h1
        rw [hh, hx, List.append_assoc]
      · have hh : s2.lines = p2 ++ relayRem r2 := h2
        rw [hh, hy, List.append_assoc]
  | @finish q1 q2 written sink =>
    obtain ⟨p1, p2, h1, h2, hint⟩ := hlive rfl
    have hq1 : q1 = relayResult s1.fails := hc1
    have hq2 : q2 = relayResult s2.fails := hc2
    have h1' : s1.lines = p1 := by simpa [relayRem] using h1
    have h2' : s2.lines = p2 := by simpa [relayRem] using h2
    have hint' : Interleave p1 p2 written := by simpa using hint
    refine ⟨hsink, hchan, hc1, hc2, ?_, ?_⟩
    · intro hr
      exact Option.noConfusion hr
    · intro r hr
      have hr' : r = joinResults q1 q2 := (Option.some.inj hr).symm
      right
      refine ⟨?_, ?_, ?_, ?_⟩
      · show RelayState.done q1 = .done (relayResult s1.fails)
        rw [hq1]
      · show RelayState.done q2 = .done (relayResult s2.fails)
        rw [hq2]
      · rw [hr', hq1, hq2]
      · rw [h1', h2']
        exact hint'

theorem reaches_inv (s1 s2 : RelaySrc) {c : Config} (h : Reaches s1 s2 c) :
    Inv s1 s2 c := by
  unfold Reaches at h
  induction h with
  | refl => exact init_inv s1 s2
  | tail _ hstep ih => exact step_inv s1 s2 hstep ih

/-! ## Schedules realising a given interleaving -/

/-- From any mid-run state with an empty channel, every interleaving zs of
the remaining lines of the two streams is realised by some schedule, ending
in the state where both relays are done, everything is written, and the join
loop has returned. -/
theorem reach_final_of_interleave (f1 f2 : Bool) {xs ys zs : List String}
    (h : Interleave xs ys zs) :
    ∀ w : List String,
      Relation.ReflTransGen Step
        ⟨.running xs f1, .running ys f2, [], w, flushBytes w, none⟩
        ⟨.done (relayResult f1), .done (relayResult f2), [], w ++ zs,
         flushBytes (w ++ zs),
         some (joinResults (relayResult f1) (relayResult f2))⟩ := by
  induction h with
  | nil =>
    intro w
    refine Relation.ReflTransGen.head Step.eof1 ?_
    refine Relation.ReflTransGen.head Step.eof2 ?_
    refine Relation.ReflTransGen.head Step.finish ?_
    simp only [List.append_nil]
    exact Relation.ReflTransGen.refl
  | @left x xs ys zs _ ih =>
    intro w
    refine Relation.ReflTransGen.head (Step.send1 (by simp [chanCapacity])) ?_
    refine Relation.ReflTransGen.head Step.recv ?_
    rw [List.append_cons w x zs, ← flushBytes_snoc]
    exact ih (w ++ [x])
  | @right y xs ys zs _ ih =>
    intro w
    refine Relation.ReflTransGen.head (Step.send2 (by simp [chanCapacity])) ?_
    refine Relation.ReflTransGen.head Step.recv ?_
    rw [List.append_cons w y zs, ← flushBytes_snoc]
    exact ih (w ++ [y])

theorem reach_cfgOk : Reaches srcA srcE cfgOk :=
  reach_final_of_interleave false false (Interleave.left Interleave.nil) []

theorem reach_cfgFail : Reaches srcAfail srcE cfgFail :=
  reach_final_of_interleave true false (Interleave.left Interleave.nil) []

theorem reach_cfgFail2 : Reaches srcE srcAfail cfgFail2 :=
  reach_final_of_interleave false true (Interleave.right Interleave.nil) []

theorem reach_cfgC6 : Reaches srcAB srcE cfgC6 := by
  have h1 : Step (init srcAB srcE)
      ⟨.running ["b"] false, .running [] false, [] ++ ["a"], [], [], none⟩ :=
    Step.send1 (by simp [chanCapacity])
  have h2 : Step
      ⟨.running ["b"] false, .running [] false, [] ++ ["a"], [], [], none⟩
      cfgC6 :=
    Step.recvFail
  exact Relation.ReflTransGen.head h1
    (Relation.ReflTransGen.head h2 Relation.ReflTransGen.refl)

/-! ## C8: the channel is bounded by its capacity -/

/-- C8: at every reachable state of a run, the shared channel holds at most
chanCapacity = 1 queued lines. The send step is guarded by the capacity, so
a relay facing a full channel has no enabled send: it suspends until the
aggregator dequeues, and the buffered lines stay bounded whatever the
production rate. -/
theorem channel_bounded (s1 s2 : RelaySrc) (c : Config)
    (hr : Reaches s1 s2 c) : c.chan.length ≤ chanCapacity :=
  (reaches_inv s1 s2 hr).chan_le

/-- Witness for C8 at the initial state of a concrete run. -/
theorem channel_bounded_witness :
    (init srcAB srcE).chan.length ≤ chanCapacity :=
  channel_bounded srcAB srcE (init srcAB srcE) Relation.ReflTransGen.refl

/-! ## C1: no loss, no duplication, one terminator per line -/

/-- C1: a run over streams of M and N lines that completes successfully (no
read, enqueue, write or flush step failed, so the run returned Ok through the
join loop) has written exactly M + N lines, each produced line appearing
exactly once (the written lines are a permutation of the two streams), and
the sink holds exactly each written line followed by exactly one newline
character. -/
theorem no_loss_no_duplication (s1 s2 : RelaySrc) (c : Config)
    (hr : Reaches s1 s2 c) (hres : c.result = some (.ok ())) :
    c.written.length = s1.lines.length + s2.lines.length ∧
    c.written.Perm (s1.lines ++ s2.lines) ∧
    c.sink = flushBytes c.written := by
  have inv := reaches_inv s1 s2 hr
  rcases inv.finalized _ hres with ⟨hio, _⟩ | ⟨_, _, _, hint⟩
  · exact Except.noConfusion hio
  · exact ⟨hint.length_eq, hint.perm, inv.sink_eq⟩

/-- Witness for C1 at a completed run over srcA and srcE. -/
theorem no_loss_no_duplication_witness :
    cfgOk.written.length = srcA.lines.length + srcE.lines.length ∧
    cfgOk.written.Perm (srcA.lines ++ srcE.lines) ∧
    cfgOk.sink = flushBytes cfgOk.written :=
  no_loss_no_duplication srcA srcE cfgOk reach_cfgOk rfl

/-! ## C2: per-stream ordering, arbitrary cross-stream interleaving -/

/-- C2: at every reachable state of every run, the lines written to the sink
form an order-preserving interleaving of a prefix of stream one and a prefix
of stream two: each stream's lines appear in exactly their production order,
and no line is written before an earlier line of the same stream. Moreover
no stronger cross-stream guarantee holds: every interleaving zs of the two
complete streams is realised by some schedule of the pipeline. -/
theorem per_stream_order (s1 s2 : RelaySrc) (c : Config)
    (hr : Reaches s1 s2 c) :
    (∃ p1 t1 p2 t2, s1.lines = p1 ++ t1 ∧ s2.lines = p2 ++ t2 ∧
        Interleave p1 p2 c.written) ∧
    (∀ zs, Interleave s1.lines s2.lines zs →
      ∃ c', Reaches s1 s2 c' ∧ c'.written = zs ∧
        c'.result
          = some (joinResults (relayResult s1.fails) (relayResult s2.fails))) := by
  have inv := reaches_inv s1 s2 hr
  constructor
  · cases hres : c.result with
    | none =>
      obtain ⟨p1, p2, h1, h2, hint⟩ := inv.live hres
      obtain ⟨a, b, cc, d, hx, hy, hi⟩ :=
        interleave_split c.written p1 p2 c.chan hint
      refine ⟨a, b ++ relayRem c.relay1, cc, d ++ relayRem c.relay2, ?_, ?_, hi⟩
      · rw [h1, hx, List.append_assoc]
      · rw [h2, hy, List.append_assoc]
    | some r =>
      rcases inv.finalized r hres with ⟨_, hpre⟩ | ⟨_, _, _, hint⟩
      · exact hpre
      · exact ⟨s1.lines, [], s2.lines, [], by simp, by simp, hint⟩
  · intro zs hzs
    refine ⟨⟨.done (relayResult s1.fails), .done (relayResult s2.fails), [],
      [] ++ zs, flushBytes ([] ++ zs),
      some (joinResults (relayResult s1.fails) (relayResult s2.fails))⟩,
      ?_, by simp, rfl⟩
    exact reach_final_of_interleave s1.fails s2.fails hzs []

/-- Witness for C2 at the initial state of a concrete run. -/
theorem per_stream_order_witness :
    (∃ p1 t1 p2 t2, srcA.lines = p1 ++ t1 ∧ srcE.lines = p2 ++ t2 ∧
        Interleave p1 p2 (init srcA srcE).written) ∧
    (∀ zs, Interleave srcA.lines srcE.lines zs →
      ∃ c', Reaches srcA srcE c' ∧ c'.written = zs ∧
        c'.result
          = some (joinResults (relayResult srcA.fails)
              (relayResult srcE.fails))) :=
  per_stream_order srcA srcE (init srcA srcE) Relation.ReflTransGen.refl

/-! ## C3: a read failure after K lines loses nothing -/

/-- C3: when either one of the two streams (stdout or stderr) reports a read
failure after its K produced lines, the other stream ends cleanly, and no
write or flush failed (the reported result is not the aggregator IoError, so
the run returned through the join loop), the written lines are a complete
interleaving of both streams, so all K lines produced before the failure
reached the sink, and the run reports the streaming error
RunMinecraftError::ThreadError rather than success. -/
theorem read_failure_preserves_lines (s1 s2 : RelaySrc) (c : Config)
    (r : Except RunMinecraftError Unit)
    (hfail : (s1.fails = true ∧ s2.fails = false) ∨
             (s1.fails = false ∧ s2.fails = true))
    (hr : Reaches s1 s2 c) (hres : c.result = some r)
    (hnw : r ≠ .error .ioError) :
    r = .error (.threadError .ioError) ∧
    Interleave s1.lines s2.lines c.written := by
  have inv := reaches_inv s1 s2 hr
  rcases inv.finalized r hres with ⟨hio, _⟩ | ⟨_, _, hjr, hint⟩
  · exact absurd hio hnw
  · refine ⟨?_, hint⟩
    rcases hfail with ⟨h1, h2⟩ | ⟨h1, h2⟩ <;> rw [hjr, h1, h2] <;> rfl

/-- Witness for C3 at two completed concrete runs, one for each failing
reader: the stdout reader failing (srcAfail, srcE, ending in cfgFail) and
the stderr reader failing (srcE, srcAfail, ending in cfgFail2). -/
theorem read_failure_preserves_lines_witness :
    ((Except.error (RunMinecraftError.threadError ThreadError.ioError)
        : Except RunMinecraftError Unit)
      = .error (.threadError .ioError) ∧
     Interleave srcAfail.lines srcE.lines cfgFail.written) ∧
    ((Except.error (RunMinecraftError.threadError ThreadError.ioError)
        : Except RunMinecraftError Unit)
      = .error (.threadError .ioError) ∧
     Interleave srcE.lines srcAfail.lines cfgFail2.written) :=
  ⟨read_failure_preserves_lines srcAfail srcE cfgFail _ (Or.inl ⟨rfl, rfl⟩)
      reach_cfgFail rfl (by simp),
   read_failure_preserves_lines srcE srcAfail cfgFail2 _ (Or.inr ⟨rfl, rfl⟩)
      reach_cfgFail2 rfl (by simp)⟩

/-! ## C6: behaviour when the aggregator write fails mid-run -/

/-- C6 counterexample: a run over the streams srcAB and srcE in which the
aggregator write fails after dequeuing "a" while the stdout relay still has
"b" to produce. The run has returned (result is set, carrying the aggregator
error) while relay1 is still running: the relay tasks are not joined or
drained before run_minecraft_server returns, refuting the claim that they
are. -/
theorem aggregator_fail_abandons_relay_cex :
    Reaches srcAB srcE cfgC6 ∧
    cfgC6.result = some (.error .ioError) ∧
    cfgC6.relay1 = .running ["b"] false ∧
    ∀ q, cfgC6.relay1 ≠ .done q :=
  ⟨reach_cfgC6, rfl, rfl, fun _ h => RelayState.noConfusion h⟩

/-- C6 amended: if the run has returned while either relay task is still
running (so the tasks were not joined), the reported error is the aggregator
write error RunMinecraftError::IoError: the failing write returns immediately
through the question-mark operator, skipping the join loop, and the
aggregator error is the one the run reports; the still-running relay tasks
are detached, not drained. -/
theorem aggregator_fail_reports_write_error (s1 s2 : RelaySrc) (c : Config)
    (r : Except RunMinecraftError Unit)
    (hr : Reaches s1 s2 c) (hres : c.result = some r)
    (hrun : (∃ ls f, c.relay1 = .running ls f) ∨
            (∃ ls f, c.relay2 = .running ls f)) :
    r = .error .ioError := by
  have inv := reaches_inv s1 s2 hr
  rcases inv.finalized r hres with ⟨hio, _⟩ | ⟨hd1, hd2, _, _⟩
  · exact hio
  · exfalso
    rcases hrun with ⟨ls, f, hrel⟩ | ⟨ls, f, hrel⟩
    · rw [hd1] at hrel
      exact RelayState.noConfusion hrel
    · rw [hd2] at hrel
      exact RelayState.noConfusion hrel

/-- Witness for the amended C6 at the concrete aborted run. -/
theorem aggregator_fail_reports_write_error_witness :
    cfgC6.result = some (.error .ioError) ∧
    (∃ ls f, cfgC6.relay1 = .running ls f) ∧
    (Except.error RunMinecraftError.ioError : Except RunMinecraftError Unit)
      = .error .ioError :=
  ⟨rfl, ⟨["b"], false, rfl⟩,
   aggregator_fail_reports_write_error srcAB srcE cfgC6 _ reach_cfgC6 rfl
     (Or.inl ⟨["b"], false, rfl⟩)⟩

end MinecraftRun
